import Mathlib

/-!
Shallow embedding of the audio playback core of the note-composer repository:
the AudioEngine (per-node transport with pause and resume offset bookkeeping),
the IndividualPlaybackManager (per-node transport with an interval based
elapsed-time tracker), the NodeManager (connection graph with play and stop
propagation), the upload validation, and the export filename synthesis.
Clock readings and durations are modelled as rationals, audio sources and gain
nodes as allocated integer ids, and the single-threaded callback runtime as
explicit event sequences. A source that has been started and has neither been
stopped nor reached its natural end is recorded in the `sounding` list; a
source that stopped sounding but whose `ended` callback has not yet been
delivered is recorded in `pendingEnded` (the platform fires the `ended`
callback both on natural end and after an explicit stop call).
-/

/-- One per-node gain stage of the AudioEngine: an allocation id plus the
current gain value (`audioContext.createGain()` plus `gain.value`). -/
structure GainStage where
  id : Nat
  value : ℚ
  deriving DecidableEq

/-- The `NodePlaybackState` record of `AudioEngine.ts` for one node:
`source` holds the id of the current buffer source (or none), the rest are
the fields of the interface verbatim. -/
structure NodePlaybackState where
  source : Option Nat
  gainNode : GainStage
  isPlaying : Bool
  isPaused : Bool
  startTime : ℚ
  pauseTime : ℚ
  volume : ℚ
  isMuted : Bool
  deriving DecidableEq

/-- The engine state relevant to a single node id: the `nodeStates` entry,
the `activeNodes` entry, the set of sources of this node that are currently
audible, the sources whose `ended` callback is queued but not yet delivered,
and a fresh-id counter for created sources and gain nodes. -/
structure AudioEngineSt where
  stateEntry : Option NodePlaybackState
  activeEntry : Option Nat
  sounding : List Nat
  pendingEnded : List Nat
  nextId : Nat
  deriving DecidableEq

/-- Calling `stop()` on the source with id `sid`: if it is still audible it
stops sounding and its `ended` callback is queued; calling `stop()` on a
source that already ended throws, which the engine catches and ignores. -/
def engStopSource (st : AudioEngineSt) (sid : Nat) : AudioEngineSt :=
  if sid ∈ st.sounding then
    { st with sounding := st.sounding.erase sid, pendingEnded := sid :: st.pendingEnded }
  else st

/-- `AudioEngine.stopNode`: stop and deregister the `activeNodes` entry if
present, then clear the playing and paused flags and the `source` field of
the `nodeStates` entry if present. -/
def stopNode (st : AudioEngineSt) : AudioEngineSt :=
  let st1 :=
    match st.activeEntry with
    | some sid => { engStopSource st sid with activeEntry := none }
    | none => st
  match st1.stateEntry with
  | some s =>
      { st1 with stateEntry := some { s with isPlaying := false, isPaused := false, source := none } }
  | none => st1

/-- `AudioEngine.playAudioBuffer` at context clock `now`: first `stopNode`,
then create a fresh source and a fresh gain stage with gain value 1,
initialize the `nodeStates` entry if missing, record the new source and gain
stage, mark playing, reset the timing fields, start the source at offset 0
and register it in `activeNodes`. The `loop` flag is stored on the source
and does not affect this bookkeeping. -/
def playAudioBuffer (st : AudioEngineSt) (now : ℚ) (_loop : Bool) : AudioEngineSt :=
  let st1 := stopNode st
  let sid := st1.nextId
  let gain : GainStage := { id := st1.nextId + 1, value := 1 }
  let st2 := { st1 with nextId := st1.nextId + 2 }
  let s0 : NodePlaybackState :=
    match st2.stateEntry with
    | some s => s
    | none =>
        { source := none, gainNode := gain, isPlaying := false, isPaused := false,
          startTime := 0, pauseTime := 0, volume := 1, isMuted := false }
  let s1 := { s0 with source := some sid, gainNode := gain, isPlaying := true,
                      isPaused := false, startTime := now, pauseTime := 0 }
  { st2 with stateEntry := some s1, sounding := sid :: st2.sounding, activeEntry := some sid }

/-- `AudioEngine.pauseNode` at context clock `now`: only acts on a node that
is playing and not paused; stops the current source, records the pause clock
in `pauseTime`, flips the flags and removes the `activeNodes` entry. -/
def pauseNode (st : AudioEngineSt) (now : ℚ) : AudioEngineSt :=
  match st.stateEntry with
  | some s =>
      if s.isPlaying && !s.isPaused then
        let st1 :=
          match s.source with
          | some sid => engStopSource st sid
          | none => st
        { st1 with
          stateEntry := some { s with isPaused := true, isPlaying := false, pauseTime := now },
          activeEntry := none }
      else st
  | none => st

/-- `AudioEngine.resumeNode` at context clock `now` with asset duration
`dur`: only acts on a paused node; computes the stored elapsed time
`pauseTime - startTime`, creates a fresh source connected to the existing
gain stage, clamps the offset to `[0, dur]`, and starts the source at the
clamped offset when it is strictly above 0.01 and strictly below `dur`,
otherwise from offset 0 (resetting the start reference to `now`). Returns
the updated state and the offset the fresh source was started at (`none`
when the node was not paused and nothing happened). -/
def resumeNode (st : AudioEngineSt) (now dur : ℚ) : AudioEngineSt × Option ℚ :=
  match st.stateEntry with
  | some s =>
      if s.isPaused then
        let elapsed := s.pauseTime - s.startTime
        let sid := st.nextId
        let st1 := { st with nextId := st.nextId + 1 }
        let startOffset := max 0 (min elapsed dur)
        if 1/100 < startOffset ∧ startOffset < dur then
          ({ st1 with
             stateEntry := some { s with source := some sid, isPlaying := true,
                                         isPaused := false, startTime := now - elapsed },
             sounding := sid :: st1.sounding, activeEntry := some sid }, some startOffset)
        else
          ({ st1 with
             stateEntry := some { s with source := some sid, isPlaying := true,
                                         isPaused := false, startTime := now },
             sounding := sid :: st1.sounding, activeEntry := some sid }, some 0)
      else (st, none)
  | none => (st, none)

/-- Delivery of the `ended` callback of source `sid` (fired after natural
end or after an explicit stop): the handler registered in `playAudioBuffer`
and `resumeNode` unconditionally deletes the `activeNodes` entry of the node
id, clears the playing flag and nulls the `source` field. -/
def endedEvent (st : AudioEngineSt) (sid : Nat) : AudioEngineSt :=
  if sid ∈ st.sounding ∨ sid ∈ st.pendingEnded then
    let st1 := { st with sounding := st.sounding.erase sid,
                         pendingEnded := st.pendingEnded.erase sid,
                         activeEntry := none }
    match st1.stateEntry with
    | some s => { st1 with stateEntry := some { s with isPlaying := false, source := none } }
    | none => st1
  else st

/-- `AudioEngine.setNodeVolume`: clamp to `[0,1]`, store it, and apply to the
gain stage, forced to 0 while muted. -/
def setNodeVolume (st : AudioEngineSt) (v : ℚ) : AudioEngineSt :=
  match st.stateEntry with
  | some s =>
      let vol := max 0 (min 1 v)
      let g := { s.gainNode with value := if s.isMuted then 0 else vol }
      { st with stateEntry := some { s with volume := vol, gainNode := g } }
  | none => st

/-- `AudioEngine.muteNode`: set the muted flag and drive the gain to 0. -/
def muteNode (st : AudioEngineSt) : AudioEngineSt :=
  match st.stateEntry with
  | some s =>
      let g := { s.gainNode with value := (0 : ℚ) }
      { st with stateEntry := some { s with isMuted := true, gainNode := g } }
  | none => st

/-- `AudioEngine.unmuteNode`: clear the muted flag and restore the gain to
the stored volume. -/
def unmuteNode (st : AudioEngineSt) : AudioEngineSt :=
  match st.stateEntry with
  | some s =>
      let g := { s.gainNode with value := s.volume }
      { st with stateEntry := some { s with isMuted := false, gainNode := g } }
  | none => st

/-- External events driving the engine for one node: user transport calls
with the context clock reading, and `ended` callback deliveries. -/
inductive AudioEngineEv where
  | play (now : ℚ) (loop : Bool)
  | pause (now : ℚ)
  | resume (now dur : ℚ)
  | stop
  | ended (sid : Nat)
  deriving DecidableEq

/-- One step of the engine under an external event. -/
def engineStep (st : AudioEngineSt) : AudioEngineEv → AudioEngineSt
  | .play now loop => playAudioBuffer st now loop
  | .pause now => pauseNode st now
  | .resume now dur => (resumeNode st now dur).1
  | .stop => stopNode st
  | .ended sid => endedEvent st sid

/-- Engine state before any event: no entries, nothing sounding. -/
def engineInit : AudioEngineSt :=
  { stateEntry := none, activeEntry := none, sounding := [], pendingEnded := [], nextId := 0 }

/-- Run the engine over an event sequence from the initial state. -/
def engineRun (evs : List AudioEngineEv) : AudioEngineSt :=
  evs.foldl engineStep engineInit

/-- The `IndividualNodeState` record of the IndividualPlaybackManager:
transport flags, the tracked elapsed time `currentTime`, the current source
id and the clock reading recorded at the last pause. -/
structure IndividualNodeState where
  isPlaying : Bool
  isPaused : Bool
  currentTime : ℚ
  audioSource : Option Nat
  pausedAt : Option ℚ
  deriving DecidableEq

/-- IndividualPlaybackManager state for one node id: the `nodeStates` entry,
the interval tracker closure data `(startTime, startRealTime)` when the
tracker is running, the audible sources, the queued `ended` callbacks and a
fresh-id counter. -/
structure IPMSt where
  entry : Option IndividualNodeState
  tracker : Option (ℚ × ℚ)
  sounding : List Nat
  pendingEnded : List Nat
  nextId : Nat
  deriving DecidableEq

/-- Calling `stop()` on source `sid` in the IndividualPlaybackManager, with
the same semantics as `engStopSource`. -/
def ipmStopSrc (st : IPMSt) (sid : Nat) : IPMSt :=
  if sid ∈ st.sounding then
    { st with sounding := st.sounding.erase sid, pendingEnded := sid :: st.pendingEnded }
  else st

/-- `initializeNode`: store a fresh entry with everything cleared. -/
def initNode (st : IPMSt) : IPMSt :=
  { st with entry := some { isPlaying := false, isPaused := false, currentTime := 0,
                            audioSource := none, pausedAt := none } }

/-- `IndividualPlaybackManager.stopNode`: stop the current source if any,
clear the interval tracker, and store the entry with flags cleared, the
source removed, `currentTime` reset to 0 and `pausedAt` cleared. -/
def stopNodeIPM (st : IPMSt) : IPMSt :=
  match st.entry with
  | none => st
  | some s =>
      let st1 :=
        match s.audioSource with
        | some sid => ipmStopSrc st sid
        | none => st
      { st1 with tracker := none,
                 entry := some { s with isPlaying := false, isPaused := false,
                                        audioSource := none, currentTime := 0, pausedAt := none } }

/-- `IndividualPlaybackManager.playNode` at context clock `now`: no-op
without an entry; otherwise stop any existing playback, create a fresh
source, start it at the stored `currentTime` when the (pre-stop) entry was
paused and at 0 otherwise, store the updated entry spread from the pre-stop
record, and start the interval tracker with closure data
`(startTime, now)`. Returns the updated state and the offset the source was
started at (`none` when there was no entry). -/
def playNodeIPM (st : IPMSt) (now : ℚ) : IPMSt × Option ℚ :=
  match st.entry with
  | none => (st, none)
  | some s =>
      let st1 := stopNodeIPM st
      let sid := st1.nextId
      let startTime := if s.isPaused then s.currentTime else 0
      ({ st1 with nextId := st1.nextId + 1,
                  entry := some { s with isPlaying := true, isPaused := false,
                                         audioSource := some sid, currentTime := startTime },
                  sounding := sid :: st1.sounding,
                  tracker := some (startTime, now) }, some startTime)

/-- `IndividualPlaybackManager.pauseNode` at context clock `now`: only acts
on a playing node; stops the source, clears the tracker, records `now` in
`pausedAt` and flips the flags, leaving `currentTime` untouched. -/
def pauseNodeIPM (st : IPMSt) (now : ℚ) : IPMSt :=
  match st.entry with
  | none => st
  | some s =>
      if s.isPlaying then
        let st1 :=
          match s.audioSource with
          | some sid => ipmStopSrc st sid
          | none => st
        { st1 with tracker := none,
                   entry := some { s with isPlaying := false, isPaused := true,
                                          audioSource := none, pausedAt := some now } }
      else st

/-- One firing of the 100 ms interval tracker at context clock `now`: while
the node is playing it overwrites `currentTime` with
`startTime + (now - startRealTime)` from the closure data; otherwise it
clears itself. -/
def tickIPM (st : IPMSt) (now : ℚ) : IPMSt :=
  match st.tracker with
  | none => st
  | some (t0, r0) =>
      match st.entry with
      | some s =>
          if s.isPlaying then
            { st with entry := some { s with currentTime := t0 + (now - r0) } }
          else { st with tracker := none }
      | none => { st with tracker := none }

/-- Delivery of the `ended` callback of source `sid` in the
IndividualPlaybackManager: the registered handler calls `stopNode`. -/
def endedIPM (st : IPMSt) (sid : Nat) : IPMSt :=
  if sid ∈ st.sounding ∨ sid ∈ st.pendingEnded then
    stopNodeIPM { st with sounding := st.sounding.erase sid,
                          pendingEnded := st.pendingEnded.erase sid }
  else st

/-- External events driving the IndividualPlaybackManager for one node. -/
inductive IPMEv where
  | initN
  | play (now : ℚ)
  | tick (now : ℚ)
  | pause (now : ℚ)
  | stopEv
  | ended (sid : Nat)
  deriving DecidableEq

/-- One step of the IndividualPlaybackManager under an external event. -/
def ipmStep (st : IPMSt) : IPMEv → IPMSt
  | .initN => initNode st
  | .play now => (playNodeIPM st now).1
  | .tick now => tickIPM st now
  | .pause now => pauseNodeIPM st now
  | .stopEv => stopNodeIPM st
  | .ended sid => endedIPM st sid

/-- Manager state before any event. -/
def ipmInit : IPMSt :=
  { entry := none, tracker := none, sounding := [], pendingEnded := [], nextId := 0 }

/-- Run the IndividualPlaybackManager over an event sequence. -/
def ipmRun (evs : List IPMEv) : IPMSt :=
  evs.foldl ipmStep ipmInit

/-- The `AudioNode` record of the NodeManager: position, the decoded buffer
(present on every node the manager creates, `none` models the null case of
the type), file name, the manager-level playing flag, the neighbor id list
and the display color. -/
structure MgrNode where
  x : ℚ
  y : ℚ
  audioBuffer : Option Nat
  fileName : String
  isPlaying : Bool
  connections : List String
  color : String
  deriving DecidableEq

/-- Commands the NodeManager issues to the AudioEngine. -/
inductive EngineCmd where
  | play (id : String) (loop : Bool)
  | stop (id : String)
  deriving DecidableEq

/-- First-match lookup in the id-keyed node table (`this.nodes.get`). -/
def lookupN : List (String × MgrNode) → String → Option MgrNode
  | [], _ => none
  | (k, v) :: rest, id => if k = id then some v else lookupN rest id

/-- Update every entry of the table with key `id` in place
(`Object.assign` on the stored record). Missing ids are a no-op, which is
exactly the guard of `updateNodeState`. -/
def updateN (f : MgrNode → MgrNode) (id : String) : List (String × MgrNode) → List (String × MgrNode)
  | [] => []
  | (k, v) :: rest =>
      if k = id then (k, f v) :: updateN f id rest else (k, v) :: updateN f id rest

/-- `updateNodeState(nodeId, { isPlaying: v })`. -/
def setPlayingM (nodes : List (String × MgrNode)) (id : String) (v : Bool) :
    List (String × MgrNode) :=
  updateN (fun n => { n with isPlaying := v }) id nodes

/-- The neighbor loop of `NodeManager.playNode`: for each listed neighbor
that exists, has a buffer and is not already playing, issue a play command
with the same loop flag and mark it playing; all other neighbors are
skipped. Returns the updated table and the issued commands in order. -/
def propagatePlay (loop : Bool) : List String → List (String × MgrNode) →
    List (String × MgrNode) × List EngineCmd
  | [], nodes => (nodes, [])
  | cid :: rest, nodes =>
      match lookupN nodes cid with
      | some c =>
          if c.audioBuffer.isSome && !c.isPlaying then
            ((propagatePlay loop rest (setPlayingM nodes cid true)).1,
             EngineCmd.play cid loop :: (propagatePlay loop rest (setPlayingM nodes cid true)).2)
          else propagatePlay loop rest nodes
      | none => propagatePlay loop rest nodes

/-- `NodeManager.playNode`: no-op when the node is missing or has no buffer;
otherwise play the node itself with the given loop flag, mark it playing,
then run the neighbor propagation over its connection list. -/
def playNodeMgr (nodes : List (String × MgrNode)) (id : String) (loop : Bool) :
    List (String × MgrNode) × List EngineCmd :=
  match lookupN nodes id with
  | none => (nodes, [])
  | some n =>
      if n.audioBuffer.isSome then
        ((propagatePlay loop n.connections (setPlayingM nodes id true)).1,
         EngineCmd.play id loop ::
           (propagatePlay loop n.connections (setPlayingM nodes id true)).2)
      else (nodes, [])

/-- The neighbor loop of `NodeManager.stopNode`: every listed neighbor gets
an unconditional engine stop command and its playing flag cleared when it
exists. -/
def propagateStop : List String → List (String × MgrNode) →
    List (String × MgrNode) × List EngineCmd
  | [], nodes => (nodes, [])
  | cid :: rest, nodes =>
      ((propagateStop rest (setPlayingM nodes cid false)).1,
       EngineCmd.stop cid :: (propagateStop rest (setPlayingM nodes cid false)).2)

/-- `NodeManager.stopNode`: always issue an engine stop for the node itself
and clear its playing flag; when the node exists, also stop every neighbor
on its connection list unconditionally. -/
def stopNodeMgr (nodes : List (String × MgrNode)) (id : String) :
    List (String × MgrNode) × List EngineCmd :=
  let nodes1 := setPlayingM nodes id false
  match lookupN nodes1 id with
  | some n =>
      ((propagateStop n.connections nodes1).1,
       EngineCmd.stop id :: (propagateStop n.connections nodes1).2)
  | none => (nodes1, [EngineCmd.stop id])

/-- `NodeManager.connectNodes`: when both endpoints exist and the target is
not already on the source list, push each id onto the other list. With
`a = b` both pushes hit the same record, which is the aliasing of the
source. -/
def connectNodes (nodes : List (String × MgrNode)) (a b : String) :
    List (String × MgrNode) :=
  match lookupN nodes a, lookupN nodes b with
  | some fa, some _ =>
      if fa.connections.contains b then nodes
      else
        updateN (fun n => { n with connections := n.connections ++ [a] }) b
          (updateN (fun n => { n with connections := n.connections ++ [b] }) a nodes)
  | _, _ => nodes

/-- `NodeManager.disconnectNodes`: filter each endpoint out of the other
list; either side is a no-op when the node is missing. -/
def disconnectNodes (nodes : List (String × MgrNode)) (a b : String) :
    List (String × MgrNode) :=
  updateN (fun n => { n with connections := n.connections.filter (fun cid => cid != a) }) b
    (updateN (fun n => { n with connections := n.connections.filter (fun cid => cid != b) }) a nodes)

/-- The deletion loop of `NodeManager.removeNode`: disconnect the node from
each neighbor of its (pre-captured) connection list in order. -/
def foldDisc (d : String) : List String → List (String × MgrNode) → List (String × MgrNode)
  | [], nodes => nodes
  | c :: rest, nodes => foldDisc d rest (disconnectNodes nodes d c)

/-- `NodeManager.removeNode`: no-op when the node is missing; otherwise
group-stop it, disconnect it from every neighbor on the connection list
captured before the stop, and delete its record. Returns the new table and
the engine commands issued by the stop. -/
def removeNode (nodes : List (String × MgrNode)) (id : String) :
    List (String × MgrNode) × List EngineCmd :=
  match lookupN nodes id with
  | none => (nodes, [])
  | some n =>
      ((foldDisc id n.connections (stopNodeMgr nodes id).1).filter (fun p => p.1 != id),
       (stopNodeMgr nodes id).2)

/-- An uploaded file as the validator sees it: byte size, declared MIME type
and name. -/
structure MFile where
  size : Nat
  mime : String
  name : String
  deriving DecidableEq

/-- The `{ isValid, error }` result of `validateAudioFile`. -/
structure ValidationResult where
  isValid : Bool
  error : Option String
  deriving DecidableEq

/-- The 30MB size ceiling of `validateAudioFile`. -/
def maxFileBytes : Nat := 30 * 1024 * 1024

/-- The MIME type allow-list of `validateAudioFile`. -/
def allowedAudioTypes : List String :=
  ["audio/mpeg", "audio/wav", "audio/mp4", "audio/ogg", "audio/aac"]

/-- The file-too-large error text. -/
def tooLargeMsg : String := "File too large. Maximum size is 30MB."

/-- The unsupported-type error text. -/
def unsupportedMsg : String :=
  "Unsupported file format. Please use MP3, WAV, M4A, OGG, or AAC."

/-- `validateAudioFile`: size ceiling first, then the MIME allow-list. -/
def validateAudioFile (f : MFile) : ValidationResult :=
  if maxFileBytes < f.size then { isValid := false, error := some tooLargeMsg }
  else if !(allowedAudioTypes.contains f.mime) then
    { isValid := false, error := some unsupportedMsg }
  else { isValid := true, error := none }

/-- Observable outcome of the upload flow for one file. -/
structure UploadOutcome where
  alerted : Bool
  decodeAttempted : Bool
  nodeCreated : Bool
  deriving DecidableEq

/-- The `handleFileUpload` flow of the App: validate first and alert and
return on failure without touching the engine; only on success resume the
context and attempt the decode, creating a node exactly when the decode
succeeds. -/
def handleFileUpload (f : MFile) (decodeSucceeds : Bool) : UploadOutcome :=
  if (validateAudioFile f).isValid then
    { alerted := !decodeSucceeds, decodeAttempted := true, nodeCreated := decodeSucceeds }
  else
    { alerted := true, decodeAttempted := false, nodeCreated := false }

/-- Whether the character list `sub` is an initial segment of `l`. -/
def chListLeads : List Char → List Char → Bool
  | [], _ => true
  | _ :: _, [] => false
  | a :: as, b :: bs => a == b && chListLeads as bs

/-- Whether the character list `sub` occurs inside `l`. -/
def chListHas (sub : List Char) : List Char → Bool
  | [] => chListLeads sub []
  | c :: rest => chListLeads sub (c :: rest) || chListHas sub rest

/-- JavaScript `String.prototype.includes`. -/
def strIncludes (s pat : String) : Bool := chListHas pat.data s.data

/-- The `preferredFormat` argument of `ExportManager.downloadAudio`. -/
inductive DownloadChoice where
  | original
  | rename
  deriving DecidableEq

/-- Extension detection of `downloadAudio`: probe the blob type for webm,
mp4 and wav in that order, defaulting to webm. -/
def detectExtension (blobType : String) : String :=
  if strIncludes blobType "webm" then "webm"
  else if strIncludes blobType "mp4" then "mp4"
  else if strIncludes blobType "wav" then "wav"
  else "webm"

/-- The display-extension rule of `downloadAudio`: the rename choice
relabels a detected webm extension as wav, everything else passes through. -/
def displayExtension (pref : DownloadChoice) (ext : String) : String :=
  if pref = DownloadChoice.rename ∧ ext = "webm" then "wav" else ext

/-- Timestamp synthesis of `downloadAudio`: first 19 characters of the ISO
string with every colon and dot replaced by a dash. -/
def formatTimestamp (iso : String) : String :=
  ((iso.data.take 19).map (fun c => if c == ':' || c == '.' then '-' else c)).asString

/-- Filename synthesis of `downloadAudio`. -/
def downloadFilename (sessionName iso blobType : String) (pref : DownloadChoice) : String :=
  sessionName ++ "-" ++ formatTimestamp iso ++ "." ++ displayExtension pref (detectExtension blobType)

/-- Concrete engine state used to instantiate the resume-offset theorem:
one paused node with stored elapsed time 2 on a duration-5 asset. -/
def c1St : AudioEngineSt :=
  { stateEntry := some { source := none, gainNode := { id := 0, value := 1 },
                         isPlaying := false, isPaused := true, startTime := 0, pauseTime := 2,
                         volume := 1, isMuted := false },
    activeEntry := none, sounding := [], pendingEnded := [], nextId := 1 }

/-- Concrete IndividualPlaybackManager trace: play at clock 0, one tracker
tick at clock 1/10, pause at clock 3/20. The true elapsed time at the pause
moment is 3/20, the last tracker update wrote 1/10. -/
def c2Trace : List IPMEv :=
  [IPMEv.initN, IPMEv.play 0, IPMEv.tick (1/10), IPMEv.pause (3/20)]

/-- Concrete manager state used to instantiate the amended pause and stop
theorem: a playing node with tracked elapsed time 1/2 and a running
tracker. -/
def c2StPlaying : IPMSt :=
  { entry := some { isPlaying := true, isPaused := false, currentTime := 1/2,
                    audioSource := some 0, pausedAt := none },
    tracker := some (0, 0), sounding := [0], pendingEnded := [], nextId := 1 }

/-- Concrete manager state used to instantiate the amended resume-offset
part: a paused node with stored elapsed time 1/2. -/
def c2StPaused : IPMSt :=
  { entry := some { isPlaying := false, isPaused := true, currentTime := 1/2,
                    audioSource := none, pausedAt := some (3/4) },
    tracker := none, sounding := [], pendingEnded := [], nextId := 1 }

/-- Concrete node table for the propagation claims: node a is connected to a
stopped node b and to an already playing node c, all with buffers. -/
def c3Nodes : List (String × MgrNode) :=
  [("a", { x := 0, y := 0, audioBuffer := some 0, fileName := "a.mp3",
           isPlaying := false, connections := ["b", "c"], color := "#ffffff" }),
   ("b", { x := 1, y := 0, audioBuffer := some 1, fileName := "b.mp3",
           isPlaying := false, connections := ["a"], color := "#ffffff" }),
   ("c", { x := 2, y := 0, audioBuffer := some 2, fileName := "c.mp3",
           isPlaying := true, connections := ["a"], color := "#ffffff" })]

/-- The engine event sequence exhibiting the stale ended-callback slip: play
while playing queues the ended callback of the first unit, whose delivery
deregisters the second unit; the stop then cannot reach the second unit and
the next play starts a third source while the second is still audible. -/
def c4Trace : List AudioEngineEv :=
  [AudioEngineEv.play 0 false, AudioEngineEv.play 1 false, AudioEngineEv.ended 0,
   AudioEngineEv.stop, AudioEngineEv.play 2 false]

/-- Single-node table used for the self-connection evaluation. -/
def c6Nodes : List (String × MgrNode) :=
  [("a", { x := 0, y := 0, audioBuffer := some 0, fileName := "a.mp3",
           isPlaying := false, connections := [], color := "#ffffff" })]

/-- Concrete engine state used to instantiate the volume and mute theorem: a
muted node with stored volume 1/2. -/
def c7St : AudioEngineSt :=
  { stateEntry := some { source := none, gainNode := { id := 0, value := 0 },
                         isPlaying := false, isPaused := false, startTime := 0, pauseTime := 0,
                         volume := 1/2, isMuted := true },
    activeEntry := none, sounding := [], pendingEnded := [], nextId := 1 }

/-- Concrete engine state used to instantiate the fresh-gain-stage theorem:
a muted node with stored volume 3/10 and gain stage id 1. -/
def c10St : AudioEngineSt :=
  { stateEntry := some { source := none, gainNode := { id := 1, value := 0 },
                         isPlaying := false, isPaused := false, startTime := 0, pauseTime := 0,
                         volume := 3/10, isMuted := true },
    activeEntry := none, sounding := [], pendingEnded := [], nextId := 2 }

/-- Concrete symmetric three-node table for the deletion claim: b is linked
to a and to c. -/
def c5Nodes : List (String × MgrNode) :=
  [("a", { x := 0, y := 0, audioBuffer := some 0, fileName := "a.mp3",
           isPlaying := false, connections := ["b"], color := "#ffffff" }),
   ("b", { x := 1, y := 0, audioBuffer := some 1, fileName := "b.mp3",
           isPlaying := true, connections := ["a", "c"], color := "#ffffff" }),
   ("c", { x := 2, y := 0, audioBuffer := some 2, fileName := "c.mp3",
           isPlaying := false, connections := ["b"], color := "#ffffff" })]

/-- The record stored under id a in `c3Nodes`. -/
def c3NodeA : MgrNode :=
  { x := 0, y := 0, audioBuffer := some 0, fileName := "a.mp3",
    isPlaying := false, connections := ["b", "c"], color := "#ffffff" }

/-- The record stored under id b in `c3Nodes`. -/
def c3NodeB : MgrNode :=
  { x := 1, y := 0, audioBuffer := some 1, fileName := "b.mp3",
    isPlaying := false, connections := ["a"], color := "#ffffff" }

/-- The record stored under id c in `c3Nodes`. -/
def c3NodeC : MgrNode :=
  { x := 2, y := 0, audioBuffer := some 2, fileName := "c.mp3",
    isPlaying := true, connections := ["a"], color := "#ffffff" }

/-- The record stored under id b in `c5Nodes`. -/
def c5NodeB : MgrNode :=
  { x := 1, y := 0, audioBuffer := some 1, fileName := "b.mp3",
    isPlaying := true, connections := ["a", "c"], color := "#ffffff" }

/-- The `nodeStates` entry of `c1St`. -/
def c1Entry : NodePlaybackState :=
  { source := none, gainNode := { id := 0, value := 1 },
    isPlaying := false, isPaused := true, startTime := 0, pauseTime := 2,
    volume := 1, isMuted := false }

/-- The `nodeStates` entry of `c7St`. -/
def c7Entry : NodePlaybackState :=
  { source := none, gainNode := { id := 0, value := 0 },
    isPlaying := false, isPaused := false, startTime := 0, pauseTime := 0,
    volume := 1/2, isMuted := true }

/-- The `nodeStates` entry of `c10St`. -/
def c10Entry : NodePlaybackState :=
  { source := none, gainNode := { id := 1, value := 0 },
    isPlaying := false, isPaused := false, startTime := 0, pauseTime := 0,
    volume := 3/10, isMuted := true }

/-- The entry of `c2StPlaying`. -/
def c2EntryPlaying : IndividualNodeState :=
  { isPlaying := true, isPaused := false, currentTime := 1/2,
    audioSource := some 0, pausedAt := none }

/-- The entry of `c2StPaused`. -/
def c2EntryPaused : IndividualNodeState :=
  { isPlaying := false, isPaused := true, currentTime := 1/2,
    audioSource := none, pausedAt := some (3/4) }

/-! ### Lemmas about the id-keyed node table -/

theorem lookupN_updateN_self (f : MgrNode → MgrNode) (id : String) :
    ∀ l : List (String × MgrNode), lookupN (updateN f id l) id = (lookupN l id).map f := by
  intro l
  induction l with
  | nil => rfl
  | cons p rest ih =>
      obtain ⟨k, v⟩ := p
      by_cases h : k = id
      · simp [updateN, lookupN, h]
      · simp [updateN, lookupN, h, ih]

theorem lookupN_updateN_ne (f : MgrNode → MgrNode) (id m : String) (h : m ≠ id) :
    ∀ l : List (String × MgrNode), lookupN (updateN f id l) m = lookupN l m := by
  intro l
  induction l with
  | nil => rfl
  | cons p rest ih =>
      obtain ⟨k, v⟩ := p
      by_cases hk : k = id
      · subst hk
        have hkm : ¬ (k = m) := fun e => h e.symm
        simp [updateN, lookupN, hkm, ih]
      · simp [updateN, lookupN, hk, ih]

theorem lookupN_mem {l : List (String × MgrNode)} {m : String} {v : MgrNode}
    (h : lookupN l m = some v) : (m, v) ∈ l := by
  induction l with
  | nil => cases h
  | cons p rest ih =>
      obtain ⟨k, w⟩ := p
      by_cases hk : k = m
      · subst hk
        simp [lookupN] at h
        simp [h]
      · simp [lookupN, hk] at h
        exact List.mem_cons_of_mem _ (ih h)

theorem lookupN_filterKey_self (d : String) :
    ∀ l : List (String × MgrNode), lookupN (l.filter (fun p => p.1 != d)) d = none := by
  intro l
  induction l with
  | nil => rfl
  | cons p rest ih =>
      obtain ⟨k, v⟩ := p
      by_cases hk : k = d
      · simp [List.filter_cons, bne_iff_ne, hk, ih]
      · simp [List.filter_cons, bne_iff_ne, hk, lookupN, ih]

theorem lookupN_filterKey_ne (d m : String) (h : m ≠ d) :
    ∀ l : List (String × MgrNode), lookupN (l.filter (fun p => p.1 != d)) m = lookupN l m := by
  intro l
  induction l with
  | nil => rfl
  | cons p rest ih =>
      obtain ⟨k, v⟩ := p
      by_cases hk : k = d
      · subst hk
        have hkm : ¬ (k = m) := fun e => h e.symm
        simp [List.filter_cons, bne_iff_ne, lookupN, hkm, ih]
      · by_cases hkm : k = m
        · simp [List.filter_cons, bne_iff_ne, lookupN, hk, hkm, h]
        · simp [List.filter_cons, bne_iff_ne, lookupN, hk, hkm, ih]

theorem lookupN_setPlayingM_ne (nodes : List (String × MgrNode)) (id m : String) (v : Bool)
    (h : m ≠ id) : lookupN (setPlayingM nodes id v) m = lookupN nodes m :=
  lookupN_updateN_ne _ _ _ h nodes

theorem lookupN_setPlayingM_self (nodes : List (String × MgrNode)) (id : String) (v : Bool) :
    lookupN (setPlayingM nodes id v) id =
      (lookupN nodes id).map (fun n => { n with isPlaying := v }) :=
  lookupN_updateN_self _ _ nodes

theorem lookupN_setPlayingM_conn (nodes : List (String × MgrNode)) (id m : String) (v : Bool) :
    (lookupN (setPlayingM nodes id v) m).map MgrNode.connections =
      (lookupN nodes m).map MgrNode.connections := by
  by_cases h : m = id
  · subst h
    rw [lookupN_setPlayingM_self]
    cases lookupN nodes m <;> rfl
  · rw [lookupN_setPlayingM_ne _ _ _ _ h]

/-! ### Lemmas about play and stop propagation -/

theorem propagatePlay_plays (loop : Bool) (b : String) (nb : MgrNode)
    (hbuf : nb.audioBuffer.isSome = true) (hnp : nb.isPlaying = false) :
    ∀ (l : List String) (nodes : List (String × MgrNode)),
      lookupN nodes b = some nb → b ∈ l →
      EngineCmd.play b loop ∈ (propagatePlay loop l nodes).2 := by
  intro l
  induction l with
  | nil => intro nodes _ hmem; cases hmem
  | cons c rest ih =>
      intro nodes hb hmem
      by_cases hcb : c = b
      · subst hcb
        simp only [propagatePlay, hb]
        simp [hbuf, hnp]
      · have hb2 : b ∈ rest := by
          rcases List.mem_cons.mp hmem with h1 | h2
          · exact absurd h1.symm hcb
          · exact h2
        simp only [propagatePlay]
        cases hc : lookupN nodes c with
        | none => exact ih nodes hb hb2
        | some cn =>
            by_cases hg : (cn.audioBuffer.isSome && !cn.isPlaying) = true
            · have hb' : lookupN (setPlayingM nodes c true) b = some nb := by
                rw [lookupN_setPlayingM_ne _ _ _ _ (fun e => hcb e.symm)]
                exact hb
              simp only [hg, if_true]
              exact List.mem_cons_of_mem _ (ih _ hb' hb2)
            · simp only [hg, if_false]
              exact ih nodes hb hb2

theorem propagatePlay_untouched (loop : Bool) (b : String) (nb : MgrNode)
    (hp : nb.isPlaying = true) :
    ∀ (l : List String) (nodes : List (String × MgrNode)),
      lookupN nodes b = some nb →
      lookupN (propagatePlay loop l nodes).1 b = some nb ∧
        ∀ l', EngineCmd.play b l' ∉ (propagatePlay loop l nodes).2 := by
  intro l
  induction l with
  | nil =>
      intro nodes hb
      exact ⟨hb, by simp [propagatePlay]⟩
  | cons c rest ih =>
      intro nodes hb
      simp only [propagatePlay]
      cases hc : lookupN nodes c with
      | none => exact ih nodes hb
      | some cn =>
          by_cases hg : (cn.audioBuffer.isSome && !cn.isPlaying) = true
          · have hcb : c ≠ b := by
              intro e
              subst e
              rw [hb] at hc
              cases hc
              simp [hp] at hg
            have hb' : lookupN (setPlayingM nodes c true) b = some nb := by
              rw [lookupN_setPlayingM_ne _ _ _ _ (fun e => hcb e.symm)]
              exact hb
            obtain ⟨ihl, ihc⟩ := ih _ hb'
            refine ⟨by simpa [hg] using ihl, ?_⟩
            intro l' hmem
            simp only [hg, if_true] at hmem
            rcases List.mem_cons.mp hmem with h1 | h2
            · cases h1
              exact hcb rfl
            · exact ihc l' h2
          · simp only [hg, if_false]
            exact ih nodes hb

theorem propagateStop_cmds :
    ∀ (l : List String) (nodes : List (String × MgrNode)),
      (propagateStop l nodes).2 = l.map EngineCmd.stop := by
  intro l
  induction l with
  | nil => intro nodes; rfl
  | cons c rest ih => intro nodes; simp [propagateStop, ih]

theorem propagateStop_conn :
    ∀ (l : List String) (nodes : List (String × MgrNode)) (m : String),
      (lookupN (propagateStop l nodes).1 m).map MgrNode.connections =
        (lookupN nodes m).map MgrNode.connections := by
  intro l
  induction l with
  | nil => intro nodes m; rfl
  | cons c rest ih =>
      intro nodes m
      simp only [propagateStop]
      rw [ih, lookupN_setPlayingM_conn]

theorem stopNodeMgr_conn (nodes : List (String × MgrNode)) (id m : String) :
    (lookupN (stopNodeMgr nodes id).1 m).map MgrNode.connections =
      (lookupN nodes m).map MgrNode.connections := by
  simp only [stopNodeMgr]
  cases hl : lookupN (setPlayingM nodes id false) id with
  | none => simp only [lookupN_setPlayingM_conn]
  | some n => rw [propagateStop_conn, lookupN_setPlayingM_conn]

/-! ### Lemmas about disconnection -/

theorem disconnectNodes_target (nodes : List (String × MgrNode)) (d c m : String)
    (nm' : MgrNode) (h : lookupN (disconnectNodes nodes d c) m = some nm')
    (hd : d ∈ nm'.connections) :
    ∃ nm, lookupN nodes m = some nm ∧ d ∈ nm.connections ∧ m ≠ c := by
  simp only [disconnectNodes] at h
  by_cases hmc : m = c
  · subst hmc
    rw [lookupN_updateN_self] at h
    obtain ⟨nmid, hmid, he⟩ := Option.map_eq_some'.mp h
    rw [← he] at hd
    simp only [List.mem_filter, bne_iff_ne] at hd
    exact absurd rfl hd.2
  · rw [lookupN_updateN_ne _ _ _ hmc] at h
    by_cases hmd : m = d
    · subst hmd
      rw [lookupN_updateN_self] at h
      obtain ⟨nm, hnm, he⟩ := Option.map_eq_some'.mp h
      rw [← he] at hd
      simp only [List.mem_filter, bne_iff_ne] at hd
      exact ⟨nm, hnm, hd.1, hmc⟩
    · rw [lookupN_updateN_ne _ _ _ hmd] at h
      exact ⟨nm', h, hd, hmc⟩

theorem foldDisc_no_target (d : String) :
    ∀ (L : List String) (nodes : List (String × MgrNode)) (m : String) (nm' : MgrNode),
      lookupN (foldDisc d L nodes) m = some nm' → d ∈ nm'.connections →
      ∃ nm, lookupN nodes m = some nm ∧ d ∈ nm.connections ∧ m ∉ L := by
  intro L
  induction L with
  | nil =>
      intro nodes m nm' h hd
      exact ⟨nm', h, hd, List.not_mem_nil m⟩
  | cons c rest ih =>
      intro nodes m nm' h hd
      obtain ⟨nm1, h1, hd1, hrest⟩ := ih (disconnectNodes nodes d c) m nm' h hd
      obtain ⟨nm0, h0, hd0, hmc⟩ := disconnectNodes_target nodes d c m nm1 h1 hd1
      refine ⟨nm0, h0, hd0, ?_⟩
      intro hmem
      rcases List.mem_cons.mp hmem with h1' | h2'
      · exact hmc h1'
      · exact hrest h2'

/-- C3: group play on node a issues an engine play command, carrying the
same loop flag as the original call (so looping is never forced on), for
every existing buffered direct neighbor b that is not already playing, while
a neighbor that is already playing is left completely untouched (its record
is unchanged and no play command targets it); group stop on a issues an
engine stop command for every direct neighbor unconditionally, whatever that
neighbor's transport state. -/
theorem c3_group_play_stop (nodes : List (String × MgrNode)) (a b : String)
    (na nb : MgrNode) (loop : Bool)
    (ha : lookupN nodes a = some na) (hbufa : na.audioBuffer.isSome = true)
    (hmem : b ∈ na.connections) (hba : b ≠ a)
    (hb : lookupN nodes b = some nb) (hbufb : nb.audioBuffer.isSome = true) :
    (nb.isPlaying = false → EngineCmd.play b loop ∈ (playNodeMgr nodes a loop).2)
    ∧ (nb.isPlaying = true →
        lookupN (playNodeMgr nodes a loop).1 b = some nb ∧
          ∀ l', EngineCmd.play b l' ∉ (playNodeMgr nodes a loop).2)
    ∧ (∀ c, c ∈ na.connections → EngineCmd.stop c ∈ (stopNodeMgr nodes a).2) := by
  have hb1 : lookupN (setPlayingM nodes a true) b = some nb := by
    rw [lookupN_setPlayingM_ne _ _ _ _ hba]
    exact hb
  refine ⟨?_, ?_, ?_⟩
  · intro hnp
    simp only [playNodeMgr, ha, hbufa, if_true]
    exact List.mem_cons_of_mem _
      (propagatePlay_plays loop b nb hbufb hnp na.connections _ hb1 hmem)
  · intro hp
    obtain ⟨hl, hc⟩ := propagatePlay_untouched loop b nb hp na.connections _ hb1
    constructor
    · simp only [playNodeMgr, ha, hbufa, if_true]
      exact hl
    · intro l' hmem'
      simp only [playNodeMgr, ha, hbufa, if_true] at hmem'
      rcases List.mem_cons.mp hmem' with h1 | h2
      · cases h1
        exact hba rfl
      · exact hc l' h2
  · intro c hcmem
    have hsa : lookupN (setPlayingM nodes a false) a = some { na with isPlaying := false } := by
      rw [lookupN_setPlayingM_self, ha]
      rfl
    simp only [stopNodeMgr, hsa]
    rw [propagateStop_cmds]
    exact List.mem_cons_of_mem _ (List.mem_map_of_mem _ hcmem)

/-- C3 witness: in the concrete three-node table `c3Nodes`, playing node a
issues a play command for the stopped neighbor b, leaves the already playing
neighbor c untouched with no play command targeting it, and stopping a stops
both neighbors. -/
theorem c3_group_play_stop_witness :
    EngineCmd.play "b" false ∈ (playNodeMgr c3Nodes "a" false).2
    ∧ lookupN (playNodeMgr c3Nodes "a" false).1 "c" = some c3NodeC
    ∧ (∀ l', EngineCmd.play "c" l' ∉ (playNodeMgr c3Nodes "a" false).2)
    ∧ EngineCmd.stop "b" ∈ (stopNodeMgr c3Nodes "a").2
    ∧ EngineCmd.stop "c" ∈ (stopNodeMgr c3Nodes "a").2 := by
  have hB := c3_group_play_stop c3Nodes "a" "b" c3NodeA c3NodeB false rfl rfl
    (by decide) (by decide) rfl rfl
  have hC := c3_group_play_stop c3Nodes "a" "c" c3NodeA c3NodeC false rfl rfl
    (by decide) (by decide) rfl rfl
  exact ⟨hB.1 rfl, (hC.2.1 rfl).1, (hC.2.1 rfl).2,
    hB.2.2 "b" (by decide), hB.2.2 "c" (by decide)⟩

/-- C4: the single-live-unit invariant is violated by the code. On the
event sequence `c4Trace` (play, play again, delivery of the queued ended
callback of the first source, stop, play) the stale callback deletes the
`activeNodes` registration of the second source, the stop therefore cannot
reach it, and the final play starts a third source while the second is
still audible: two playback units of the same node sound at once. -/
theorem c4_stale_callback_two_live_units :
    (engineRun c4Trace).sounding.length = 2
    ∧ ¬ ((engineRun c4Trace).sounding.length ≤ 1) := by decide

/-- C5: removing a node first issues the engine stop for it, and afterwards
no remaining record lists the removed id as a neighbor, provided the
adjacency was symmetric beforehand (which every table built by the manager
operations is). -/
theorem c5_remove_no_dangling (nodes : List (String × MgrNode)) (d : String) (nd : MgrNode)
    (hd : lookupN nodes d = some nd)
    (hsymm : ∀ p ∈ nodes, ∀ q ∈ nodes, p.1 ∈ q.2.connections → q.1 ∈ p.2.connections) :
    EngineCmd.stop d ∈ (removeNode nodes d).2
    ∧ ∀ m nm', lookupN (removeNode nodes d).1 m = some nm' → d ∉ nm'.connections := by
  constructor
  · simp only [removeNode, hd, stopNodeMgr]
    cases hl : lookupN (setPlayingM nodes d false) d with
    | some n => exact List.mem_cons_self _ _
    | none => exact List.mem_cons_self _ _
  · intro m nm' hm hdm
    simp only [removeNode, hd] at hm
    have hmd : m ≠ d := by
      intro e
      subst e
      rw [lookupN_filterKey_self] at hm
      cases hm
    rw [lookupN_filterKey_ne _ _ hmd] at hm
    obtain ⟨nm1, h1, hd1, hnotL⟩ := foldDisc_no_target d nd.connections _ m nm' hm hdm
    have hconn := stopNodeMgr_conn nodes d m
    rw [h1] at hconn
    cases hm0 : lookupN nodes m with
    | none =>
        rw [hm0] at hconn
        cases hconn
    | some nm0 =>
        rw [hm0] at hconn
        have hc : nm1.connections = nm0.connections := by
          simpa using hconn
        have hd0 : d ∈ nm0.connections := hc ▸ hd1
        exact hnotL (hsymm (d, nd) (lookupN_mem hd) (m, nm0) (lookupN_mem hm0) hd0)

/-- C5 witness: removing node b from the symmetric table `c5Nodes` issues
the engine stop for b, leaves a and c with empty neighbor lists and deletes
the record of b. -/
theorem c5_remove_no_dangling_witness :
    EngineCmd.stop "b" ∈ (removeNode c5Nodes "b").2
    ∧ (lookupN (removeNode c5Nodes "b").1 "a").map MgrNode.connections = some []
    ∧ (lookupN (removeNode c5Nodes "b").1 "c").map MgrNode.connections = some []
    ∧ lookupN (removeNode c5Nodes "b").1 "b" = none := by
  have h := c5_remove_no_dangling c5Nodes "b" c5NodeB rfl (by decide)
  exact ⟨h.1, by decide, by decide, by decide⟩

/-- C6: the code does not reject a self connection. Calling `connectNodes`
with both arguments equal to the single existing node a passes the presence
guard (the list is empty) and then pushes a onto the connection list of the
very same record twice: a duplicated self-link is created, where the claim
requires the call to be rejected with no self-link ever created. -/
theorem c6_self_connection_not_rejected :
    (lookupN (connectNodes c6Nodes "a" "a") "a").map MgrNode.connections = some ["a", "a"]
    ∧ connectNodes c6Nodes "a" "a" ≠ c6Nodes := by decide

/-! ### Lemmas about the engine state -/

theorem engStopSource_stateEntry (st : AudioEngineSt) (sid : Nat) :
    (engStopSource st sid).stateEntry = st.stateEntry := by
  simp only [engStopSource]
  split <;> rfl

theorem engStopSource_nextId (st : AudioEngineSt) (sid : Nat) :
    (engStopSource st sid).nextId = st.nextId := by
  simp only [engStopSource]
  split <;> rfl

theorem stopNode_stateEntry (st : AudioEngineSt) :
    (stopNode st).stateEntry = st.stateEntry.map
      (fun s => { s with isPlaying := false, isPaused := false, source := none }) := by
  simp only [stopNode]
  cases ha : st.activeEntry with
  | none => cases hse : st.stateEntry <;> simp [hse]
  | some sid =>
      cases hse : st.stateEntry <;>
        simp [engStopSource_stateEntry, hse]

theorem stopNode_nextId (st : AudioEngineSt) :
    (stopNode st).nextId = st.nextId := by
  simp only [stopNode]
  cases ha : st.activeEntry with
  | none => cases hse : st.stateEntry <;> simp [hse]
  | some sid =>
      cases hse : (engStopSource st sid).stateEntry <;>
        simp [hse, engStopSource_nextId]

/-- C1: resuming a node in Paused state always creates and starts a fresh
playback unit (a freshly allocated source id is pushed onto the sounding
list), started exactly at the stored resume offset `pauseTime - startTime`
when that offset lies strictly between the epsilon 0.01 and the asset
duration, and started at offset 0 for every stored offset outside that open
interval, including offsets at or above the duration; the operation never
fails. -/
theorem c1_resume_offset_policy (st : AudioEngineSt) (s : NodePlaybackState) (now dur : ℚ)
    (hs : st.stateEntry = some s) (hp : s.isPaused = true) (hd : 0 ≤ dur) :
    (resumeNode st now dur).1.sounding = st.nextId :: st.sounding
    ∧ (resumeNode st now dur).2 =
        some (if 1/100 < s.pauseTime - s.startTime ∧ s.pauseTime - s.startTime < dur
              then s.pauseTime - s.startTime else 0) := by
  by_cases hraw : 1/100 < s.pauseTime - s.startTime ∧ s.pauseTime - s.startTime < dur
  · have hmin : min (s.pauseTime - s.startTime) dur = s.pauseTime - s.startTime :=
      min_eq_left (le_of_lt hraw.2)
    have hmax : max 0 (min (s.pauseTime - s.startTime) dur) = s.pauseTime - s.startTime := by
      rw [hmin]
      exact max_eq_right (by linarith [hraw.1])
    simp only [resumeNode, hs, hp, if_true, hmax]
    rw [if_pos hraw, if_pos hraw]
    exact ⟨rfl, rfl⟩
  · have hcond : ¬ (1/100 < max 0 (min (s.pauseTime - s.startTime) dur)
        ∧ max 0 (min (s.pauseTime - s.startTime) dur) < dur) := by
      rcases not_and_or.mp hraw with h1 | h2
      · have h1' : s.pauseTime - s.startTime ≤ 1/100 := not_lt.mp h1
        have hle : max 0 (min (s.pauseTime - s.startTime) dur) ≤ 1/100 := by
          apply max_le
          · norm_num
          · exact le_trans (min_le_left _ _) h1'
        exact fun hc => absurd hc.1 (not_lt.mpr hle)
      · have h2' : dur ≤ s.pauseTime - s.startTime := not_lt.mp h2
        have heq : max 0 (min (s.pauseTime - s.startTime) dur) = dur := by
          rw [min_eq_right h2']
          exact max_eq_right hd
        intro hc
        rw [heq] at hc
        exact lt_irrefl dur hc.2
    simp only [resumeNode, hs, hp, if_true]
    rw [if_neg hcond, if_neg hraw]
    exact ⟨rfl, rfl⟩

/-- C1 witness: resuming the concrete paused state `c1St` (stored offset 2,
duration 5, so the offset is strictly inside the open interval) starts the
fresh unit with id 1 at offset exactly 2. -/
theorem c1_resume_offset_policy_witness :
    (resumeNode c1St 10 5).2 = some 2
    ∧ (resumeNode c1St 10 5).1.sounding = [1] := by
  have h := c1_resume_offset_policy c1St c1Entry 10 5 rfl rfl (by norm_num)
  constructor
  · rw [h.2]
    norm_num [c1Entry]
  · simpa using h.1

/-- C10: every fresh play on a node that already has stored state replaces
its gain stage by a freshly allocated one whose gain value is 1, while the
stored volume and muted flag are carried over unchanged; in particular a
muted node, or one whose stored volume is below 1, sounds at full gain after
a fresh play until volume or mute is applied again. -/
theorem c10_fresh_gain_on_play (st : AudioEngineSt) (s : NodePlaybackState) (now : ℚ)
    (loop : Bool) (hs : st.stateEntry = some s) (hfresh : s.gainNode.id < st.nextId) :
    ∃ s', (playAudioBuffer st now loop).stateEntry = some s'
      ∧ s'.gainNode.id = st.nextId + 1
      ∧ s'.gainNode.value = 1
      ∧ s'.gainNode.id ≠ s.gainNode.id
      ∧ s'.volume = s.volume
      ∧ s'.isMuted = s.isMuted := by
  have h1 : (stopNode st).stateEntry
      = some { s with isPlaying := false, isPaused := false, source := none } := by
    rw [stopNode_stateEntry, hs]
    rfl
  have h2 : (stopNode st).nextId = st.nextId := stopNode_nextId st
  simp only [playAudioBuffer, h1, h2]
  refine ⟨_, rfl, rfl, rfl, ?_, rfl, rfl⟩
  simp only []
  omega

/-- C10 witness: playing the concrete muted node `c10St` (stored volume
3/10, gain stage id 1, next fresh id 2) installs a fresh gain stage with id
3 and gain value 1 while volume and muted flag are preserved. -/
theorem c10_fresh_gain_on_play_witness :
    ∃ s', (playAudioBuffer c10St 0 false).stateEntry = some s'
      ∧ s'.gainNode.id = c10St.nextId + 1
      ∧ s'.gainNode.value = 1
      ∧ s'.volume = c10Entry.volume
      ∧ s'.isMuted = c10Entry.isMuted := by
  obtain ⟨s', ha, hb, hc, _, he, hf⟩ :=
    c10_fresh_gain_on_play c10St c10Entry 0 false rfl (by decide)
  exact ⟨s', ha, hb, hc, he, hf⟩

/-- C7: setting the volume stores the value clamped to the unit interval
without changing the muted flag, and applies it to the gain stage except
that a muted node keeps effective gain 0; muting drives the gain to 0
without altering the stored volume; unmuting restores the gain to exactly
the stored volume; and in particular setting a volume while muted followed
by unmuting yields the freshly clamped volume as the gain. -/
theorem c7_volume_clamp_mute (st : AudioEngineSt) (s : NodePlaybackState) (v : ℚ)
    (hs : st.stateEntry = some s) :
    (∃ s1, (setNodeVolume st v).stateEntry = some s1
        ∧ s1.volume = max 0 (min 1 v)
        ∧ s1.isMuted = s.isMuted
        ∧ s1.gainNode.value = (if s.isMuted then 0 else max 0 (min 1 v)))
    ∧ (∃ s2, (muteNode st).stateEntry = some s2
        ∧ s2.gainNode.value = 0 ∧ s2.volume = s.volume ∧ s2.isMuted = true)
    ∧ (∃ s3, (unmuteNode st).stateEntry = some s3
        ∧ s3.gainNode.value = s.volume ∧ s3.volume = s.volume ∧ s3.isMuted = false)
    ∧ (∃ s4, (unmuteNode (setNodeVolume st v)).stateEntry = some s4
        ∧ s4.gainNode.value = max 0 (min 1 v) ∧ s4.volume = max 0 (min 1 v)
        ∧ s4.isMuted = false) := by
  refine ⟨?_, ?_, ?_, ?_⟩
  · simp only [setNodeVolume, hs]
    exact ⟨_, rfl, rfl, rfl, rfl⟩
  · simp only [muteNode, hs]
    exact ⟨_, rfl, rfl, rfl, rfl⟩
  · simp only [unmuteNode, hs]
    exact ⟨_, rfl, rfl, rfl, rfl⟩
  · simp only [setNodeVolume, unmuteNode, hs]
    exact ⟨_, rfl, rfl, rfl, rfl⟩

/-- C7 witness: on the concrete muted state `c7St`, setting volume 3/10
stores exactly 3/10, keeps the node muted with gain 0, and unmuting then
yields gain exactly 3/10. -/
theorem c7_volume_clamp_mute_witness :
    (∃ s1, (setNodeVolume c7St (3/10)).stateEntry = some s1
        ∧ s1.volume = 3/10 ∧ s1.isMuted = true ∧ s1.gainNode.value = 0)
    ∧ (∃ s4, (unmuteNode (setNodeVolume c7St (3/10))).stateEntry = some s4
        ∧ s4.gainNode.value = 3/10 ∧ s4.isMuted = false) := by
  obtain ⟨⟨s1, h1, h2, h3, h4⟩, _, _, ⟨s4, g1, g2, g3, g4⟩⟩ :=
    c7_volume_clamp_mute c7St c7Entry (3/10) rfl
  have hclamp : max 0 (min 1 (3/10 : ℚ)) = 3/10 := by norm_num
  have hmut : c7Entry.isMuted = true := rfl
  refine ⟨⟨s1, h1, by rw [h2, hclamp], by rw [h3, hmut], ?_⟩, ⟨s4, g1, by rw [g2, hclamp], g4⟩⟩
  rw [h4, hmut]
  simp

/-! ### Lemmas about the IndividualPlaybackManager -/

theorem stopNodeIPM_currentTime (st : IPMSt) (s : IndividualNodeState)
    (hs : st.entry = some s) :
    (stopNodeIPM st).entry.map IndividualNodeState.currentTime = some 0 := by
  simp only [stopNodeIPM, hs]
  rfl

/-- C2 counterexample: after the concrete trace `c2Trace` (play at clock 0
from offset 0, tracker tick at clock 1/10, pause at clock 3/20) the elapsed
playback time at the moment of the pause is 3/20, but the stored resume
offset is 1/10, the value written by the last tracker tick, so the stored
offset does not equal the elapsed time at the pause moment as the claim
states. -/
theorem c2_pause_offset_counterexample :
    ((ipmRun c2Trace).entry.map IndividualNodeState.currentTime) = some (1/10)
    ∧ ((ipmRun c2Trace).entry.map IndividualNodeState.currentTime) ≠ some (3/20) := by
  have h : ((ipmRun c2Trace).entry.map IndividualNodeState.currentTime) = some (1/10) := by
    norm_num [ipmRun, c2Trace, ipmInit, ipmStep, List.foldl, initNode, playNodeIPM,
      stopNodeIPM, tickIPM, pauseNodeIPM, ipmStopSrc]
  refine ⟨h, ?_⟩
  rw [h]
  intro e
  have := Option.some.inj e
  norm_num at this

/-- C2 amended: an explicit stop out of any state, and a natural end (whose
callback runs stop), always reset the stored resume offset to 0; a pause
never resets it: after pause the stored offset is exactly the pre-pause
`currentTime` (the elapsed time as of the most recent 100 ms tracker tick,
which wrote `startTime + (now - startRealTime)`; the exact pause clock is
recorded separately in `pausedAt` and not used for resume), and that stored
offset is exactly the offset at which a subsequent resume starts the new
unit. -/
theorem c2_stop_resets_pause_preserves (st : IPMSt) (s : IndividualNodeState)
    (now now2 now3 : ℚ) (t0 r0 : ℚ) (sid : Nat) (hs : st.entry = some s) :
    ((stopNodeIPM st).entry.map IndividualNodeState.currentTime = some 0)
    ∧ (sid ∈ st.sounding →
        (endedIPM st sid).entry.map IndividualNodeState.currentTime = some 0)
    ∧ (s.isPlaying = true → ∃ s', (pauseNodeIPM st now).entry = some s'
        ∧ s'.currentTime = s.currentTime ∧ s'.isPaused = true ∧ s'.isPlaying = false
        ∧ s'.pausedAt = some now)
    ∧ (s.isPaused = true → (playNodeIPM st now2).2 = some s.currentTime)
    ∧ (st.tracker = some (t0, r0) → s.isPlaying = true →
        (tickIPM st now3).entry.map IndividualNodeState.currentTime
          = some (t0 + (now3 - r0))) := by
  refine ⟨stopNodeIPM_currentTime st s hs, ?_, ?_, ?_, ?_⟩
  · intro hmem
    have hcond : sid ∈ st.sounding ∨ sid ∈ st.pendingEnded := Or.inl hmem
    simp only [endedIPM, if_pos hcond]
    exact stopNodeIPM_currentTime _ s hs
  · intro hp
    simp only [pauseNodeIPM, hs, hp, if_true]
    exact ⟨_, rfl, rfl, rfl, rfl, rfl⟩
  · intro hpause
    simp only [playNodeIPM, hs, hpause, if_true]
  · intro htr hp
    simp only [tickIPM, htr, hs, hp, if_true]
    rfl

/-- C2 amended witness: instantiating the amended theorem at the concrete
playing state `c2StPlaying` (stored offset 1/2, tracker closure (0,0)) and
at the concrete paused state `c2StPaused` (stored offset 1/2): stop resets
the offset to 0, the natural end does too, pause at clock 5 keeps the
stored offset 1/2, resume at clock 7 starts at exactly the stored 1/2, and
a tick at clock 1 writes 0 + (1 - 0). -/
theorem c2_stop_resets_pause_preserves_witness :
    ((stopNodeIPM c2StPlaying).entry.map IndividualNodeState.currentTime = some 0)
    ∧ ((endedIPM c2StPlaying 0).entry.map IndividualNodeState.currentTime = some 0)
    ∧ (∃ s', (pauseNodeIPM c2StPlaying 5).entry = some s'
        ∧ s'.currentTime = c2EntryPlaying.currentTime ∧ s'.isPaused = true
        ∧ s'.isPlaying = false ∧ s'.pausedAt = some 5)
    ∧ ((playNodeIPM c2StPaused 7).2 = some c2EntryPaused.currentTime)
    ∧ ((tickIPM c2StPlaying 1).entry.map IndividualNodeState.currentTime
        = some (0 + (1 - 0))) := by
  have hPlay := c2_stop_resets_pause_preserves c2StPlaying c2EntryPlaying 5 0 1 0 0 0 rfl
  have hPaused := c2_stop_resets_pause_preserves c2StPaused c2EntryPaused 0 7 0 0 0 0 rfl
  exact ⟨hPlay.1, hPlay.2.1 (by decide), hPlay.2.2.1 rfl,
    hPaused.2.2.2.1 rfl, hPlay.2.2.2.2 rfl rfl⟩

/-- C8: pre-decode validation accepts a file of exactly 30MB with an
allow-listed type, rejects a file of 30MB plus one byte with the
file-too-large error whatever its declared type (so the size gate runs
before the type gate), and both checks run before any decode attempt: a
file failing validation reaches neither the decoder nor node creation. -/
theorem c8_upload_validation (good other nm nm2 : String) (f : MFile) (d : Bool)
    (hg : good ∈ allowedAudioTypes) :
    (validateAudioFile { size := 30 * 1024 * 1024, mime := good, name := nm }).isValid = true
    ∧ validateAudioFile { size := 30 * 1024 * 1024 + 1, mime := other, name := nm2 }
        = { isValid := false, error := some tooLargeMsg }
    ∧ ((validateAudioFile f).isValid = false →
        handleFileUpload f d
          = { alerted := true, decodeAttempted := false, nodeCreated := false }) := by
  refine ⟨?_, ?_, ?_⟩
  · simp [validateAudioFile, maxFileBytes, hg]
  · simp [validateAudioFile, maxFileBytes]
  · intro h
    simp [handleFileUpload, h]

/-- C8 witness: exactly 30MB with type audio/mpeg is accepted, one byte
more is rejected with the file-too-large error, and a file that fails
validation (here a text/plain file) produces no decode attempt and no node
even if decoding would have succeeded. -/
theorem c8_upload_validation_witness :
    (validateAudioFile { size := 30 * 1024 * 1024, mime := "audio/mpeg", name := "x" }).isValid
        = true
    ∧ validateAudioFile { size := 30 * 1024 * 1024 + 1, mime := "audio/mpeg", name := "x" }
        = { isValid := false, error := some tooLargeMsg }
    ∧ handleFileUpload { size := 5, mime := "text/plain", name := "x" } true
        = { alerted := true, decodeAttempted := false, nodeCreated := false } := by
  have h := c8_upload_validation "audio/mpeg" "audio/mpeg" "x" "x"
    { size := 5, mime := "text/plain", name := "x" } true (by decide)
  exact ⟨h.1, h.2.1, h.2.2 (by decide)⟩

/-- C9 counterexample: the blob type audio/webm is detected as extension
webm, yet the rename download choice produces a filename ending in .wav for
that very blob, while the original choice produces the .webm name: the
extension of the rename path is a user-chosen label differing from the one
derived from the actual blob type, refuting the claim that the extension is
never a user-chosen one differing from the real type. -/
theorem c9_rename_extension_counterexample :
    detectExtension "audio/webm" = "webm"
    ∧ downloadFilename "note-composition" "2025-01-01T00:00:00.000Z" "audio/webm"
        DownloadChoice.rename = "note-composition-2025-01-01T00-00-00.wav"
    ∧ downloadFilename "note-composition" "2025-01-01T00:00:00.000Z" "audio/webm"
        DownloadChoice.original = "note-composition-2025-01-01T00-00-00.webm"
    ∧ ("note-composition-2025-01-01T00-00-00.wav" : String)
        ≠ "note-composition-2025-01-01T00-00-00.webm" := by decide

/-- C9 amended: the download filename is always the session name, a dash,
the ISO timestamp truncated to seconds with colons and dots replaced by
dashes, a dot and an extension; for the original download choice the
extension is exactly the one detected from the blob content type
(webm, mp4 or wav probed in the blob type, defaulting to webm), while the
user-selectable rename choice relabels a detected webm extension as wav
without changing the blob content. -/
theorem c9_filename_synthesis (sn iso bt : String) :
    downloadFilename sn iso bt DownloadChoice.original
        = sn ++ "-" ++ formatTimestamp iso ++ "." ++ detectExtension bt
    ∧ downloadFilename sn iso bt DownloadChoice.rename
        = sn ++ "-" ++ formatTimestamp iso ++ "."
            ++ (if detectExtension bt = "webm" then "wav" else detectExtension bt) := by
  constructor
  · simp [downloadFilename, displayExtension]
  · simp only [downloadFilename, displayExtension]
    by_cases h : detectExtension bt = "webm" <;> simp [h]
